import Mathlib

set_option maxRecDepth 8000

namespace Tftp

/-!
Shallow embedding of the tftp server source (tftp.py).

Python 2 byte strings are modelled as lists of natural numbers, one
natural per byte.  Hosts are byte strings as well, ports are naturals.
The duck-typed file system collaborator (a `getFileData` provider) is
passed explicitly to each operation, and the mutable `Download` object
becomes explicit state passing: each method returns the updated state
together with either a result or the exception it raises.
-/

abbrev Bytes := List Nat

deriving instance DecidableEq for Except

def BLOCK_SIZE : Nat := 512

def opRRQ : Bytes := [0, 1]

def opWRQ : Bytes := [0, 2]

def opDATA : Bytes := [0, 3]

def opACK : Bytes := [0, 4]

def opERROR : Bytes := [0, 5]

/-- The distinct `BadDataError` messages raised in tftp.py. -/
inductive BadKind where
  | fileNotFound
  | notAnAck
  | wrongSource
  | outOfSequence
  | notAReadRequest
deriving DecidableEq

/-- Exceptions escaping the tftp.py functions: `BadDataError` with one of
its messages, `struct.error` from pack/unpack, `ValueError` from tuple
unpacking of a split, and `IOError` from a bad seek. -/
inductive Err where
  | badData (k : BadKind)
  | structError
  | valueError
  | ioError
deriving DecidableEq

/-- struct.pack of format >H: two big-endian bytes for an unsigned short,
struct.error when the number does not fit. -/
def intToBytes (i : Nat) : Except Err Bytes :=
  if i < 65536 then Except.ok [i / 256, i % 256] else Except.error Err.structError

/-- struct.unpack of format >H: struct.error unless the input is exactly
two bytes. -/
def bytesToInt (byt : Bytes) : Except Err Nat :=
  match byt with
  | [a, b] => Except.ok (a * 256 + b)
  | _ => Except.error Err.structError

/-- Python split on the single-byte separator 0, as used by
ReadRequest: every occurrence of the separator splits, separators are
dropped, and the empty string splits into one empty field. -/
def splitNull : Bytes → List Bytes
  | [] => [[]]
  | b :: rest =>
    if b = 0 then [] :: splitNull rest
    else
      match splitNull rest with
      | [] => [[b]]
      | f :: fs => (b :: f) :: fs

structure Ack where
  blockno : Nat
deriving DecidableEq

/-- Ack construction from a raw datagram (Ack.__init__). -/
def Ack.ofData (data : Bytes) : Except Err Ack :=
  if data.take 2 ≠ opACK then Except.error (Err.badData BadKind.notAnAck)
  else
    match bytesToInt (data.drop 2) with
    | Except.ok n => Except.ok ⟨n⟩
    | Except.error e => Except.error e

structure ReadRequest where
  filename : Bytes
  mode : Bytes
deriving DecidableEq

/-- ReadRequest construction from a raw datagram (ReadRequest.__init__).
The three-way tuple unpacking of the split raises ValueError when the
split does not have exactly three fields. -/
def ReadRequest.ofData (data : Bytes) : Except Err ReadRequest :=
  if data.length < 2 ∨ data.take 2 ≠ opRRQ then
    Except.error (Err.badData BadKind.notAReadRequest)
  else
    match splitNull (data.drop 2) with
    | [f, m, _n] => Except.ok ⟨f, m⟩
    | _ => Except.error Err.valueError

/-- The getFileData collaborator: a filename and a block number give the
bytes of that block, or nothing when the lookup fails. -/
abbrev Provider := Bytes → Nat → Option Bytes

structure Download where
  filename : Bytes
  mode : Bytes
  remoteHost : Bytes
  remotePort : Nat
  blockno : Nat
  done : Bool
deriving DecidableEq

/-- Download.__init__ from a parsed read request and the pinned source
address: block number 0, not done. -/
def Download.ofRequest (rr : ReadRequest) (host : Bytes) (port : Nat) : Download :=
  ⟨rr.filename, rr.mode, host, port, 0, false⟩

/-- Download.nextData: increment blockno, fetch that block, mark done
when the block is short.  The increment happens before the fetch, so it
survives a fetch failure (the raised exception carries on from the
mutated object). -/
def Download.nextData (fs : Provider) (d : Download) : Download × Except Err (Nat × Bytes) :=
  match fs d.filename (d.blockno + 1) with
  | none =>
    ({ d with blockno := d.blockno + 1 }, Except.error (Err.badData BadKind.fileNotFound))
  | some data =>
    ({ d with
        blockno := d.blockno + 1,
        done := if data.length < BLOCK_SIZE then true else d.done },
     Except.ok (d.blockno + 1, data))

/-- Download.makeNextDataMessage: DATA opcode, two block number bytes,
payload. -/
def Download.makeNextDataMessage (fs : Provider) (d : Download) : Download × Except Err Bytes :=
  match d.nextData fs with
  | (d1, Except.error e) => (d1, Except.error e)
  | (d1, Except.ok (b, data)) =>
    match intToBytes b with
    | Except.error e => (d1, Except.error e)
    | Except.ok bb => (d1, Except.ok (opDATA ++ bb ++ data))

/-- Download.ack: source address check, then ack parsing, then sequence
check, then production of the next data message. -/
def Download.ack (fs : Provider) (d : Download) (message : Bytes) (host : Bytes) (port : Nat) :
    Download × Except Err Bytes :=
  if host ≠ d.remoteHost ∨ port ≠ d.remotePort then
    (d, Except.error (Err.badData BadKind.wrongSource))
  else
    match Ack.ofData message with
    | Except.error e => (d, Except.error e)
    | Except.ok a =>
      if a.blockno ≠ d.blockno then
        (d, Except.error (Err.badData BadKind.outOfSequence))
      else d.makeNextDataMessage fs

/-- FileSystem.readBlock: seek to (blockno - 1) * BLOCK_SIZE and read up
to BLOCK_SIZE bytes; a negative seek raises IOError. -/
def readBlock (content : Bytes) (blockno : Nat) : Except Err Bytes :=
  if blockno = 0 then Except.error Err.ioError
  else Except.ok ((content.drop ((blockno - 1) * BLOCK_SIZE)).take BLOCK_SIZE)

/-- FileSystem.getFileData: scan the directory listing for an entry
whose plain name equals the requested name, read its block on the first
match, raise the file-not-found BadDataError when nothing matches.  The
directory is a listing of (plain name, file content) pairs. -/
def getFileData (dir : List (Bytes × Bytes)) (requestedFilename : Bytes) (blockno : Nat) :
    Except Err Bytes :=
  match dir.find? (fun p => p.1 = requestedFilename) with
  | some p => readBlock p.2 blockno
  | none => Except.error (Err.badData BadKind.fileNotFound)

/-- The two transport effects TftpDownloadHandler.datagramReceived can
perform, in order. -/
inductive TransportAction where
  | stopListening
  | write (msg : Bytes) (dest : Bytes × Nat)
deriving DecidableEq

/-- TftpDownloadHandler.datagramReceived, timer resets elided: when the
download is done it stops listening, and then in every case it still
calls Download.ack and writes the result; an exception from ack escapes
after any stop-listening already happened. -/
def datagramReceived (fs : Provider) (d : Download) (data : Bytes) (host : Bytes) (port : Nat) :
    Download × List TransportAction × Option Err :=
  let pre := if d.done then [TransportAction.stopListening] else []
  match d.ack fs data host port with
  | (d1, Except.ok msg) => (d1, pre ++ [TransportAction.write msg (host, port)], none)
  | (d1, Except.error e) => (d1, pre, some e)

/-- Iterated state of repeated makeNextDataMessage calls, keeping the
state even of failed calls. -/
def runD (fs : Provider) (d : Download) : Nat → Download
  | 0 => d
  | n + 1 => ((runD fs d n).makeNextDataMessage fs).1

/-- State after n makeNextDataMessage calls that all succeeded, or
nothing when one of them failed. -/
def stepsOk (fs : Provider) : Nat → Download → Option Download
  | 0, d => some d
  | n + 1, d =>
    match stepsOk fs n d with
    | none => none
    | some d1 =>
      match d1.makeNextDataMessage fs with
      | (d2, Except.ok _) => some d2
      | (_, Except.error _) => none

/-! Concrete fixtures mirroring tests.py. -/

/-- The bytes of the name woo.txt. -/
def wooName : Bytes := [119, 111, 111, 46, 116, 120, 116]

/-- The bytes of the mode netascii. -/
def netasciiBytes : Bytes := [110, 101, 116, 97, 115, 99, 105, 105]

/-- The bytes of the host 127.0.0.1. -/
def localHost1 : Bytes := [49, 50, 55, 46, 48, 46, 48, 46, 49]

/-- The bytes of the host 127.0.0.2, a different source. -/
def otherHost : Bytes := [49, 50, 55, 46, 48, 46, 48, 46, 50]

/-- The read request datagram for woo.txt in mode netascii. -/
def rrqWoo : Bytes := opRRQ ++ wooName ++ [0] ++ netasciiBytes ++ [0]

/-- The parsed read request for woo.txt. -/
def rrWoo : ReadRequest := ⟨wooName, netasciiBytes⟩

/-- 520 bytes of content: the digits 0123456789 repeated 52 times. -/
def fileData520 : Bytes := (List.replicate 52 [48, 49, 50, 51, 52, 53, 54, 55, 56, 57]).flatten

/-- Provider holding exactly the 520-byte resource woo.txt, with block k
covering byte offsets (k-1)*512 through k*512-1, as the DummyFileSystem
of tests.py does via seek and read. -/
def fs520 : Provider := fun name blockno =>
  if name = wooName then
    some ((fileData520.drop ((blockno - 1) * BLOCK_SIZE)).take BLOCK_SIZE)
  else none

/-- Provider holding nothing at all. -/
def emptyFs : Provider := fun _ _ => none

/-- Fresh session for woo.txt pinned to (127.0.0.1, 1111). -/
def dl0 : Download := Download.ofRequest rrWoo localHost1 1111

/-- The woo.txt session after one successful data message: block 1 sent,
not yet done. -/
def dlStep1 : Download := ⟨wooName, netasciiBytes, localHost1, 1111, 1, false⟩

/-- The woo.txt session after the final short block 2 was sent: done. -/
def dDone : Download := ⟨wooName, netasciiBytes, localHost1, 1111, 2, true⟩

/-! Helper lemmas about the embedded operations. -/

theorem nextData_fst_blockno (fs : Provider) (d : Download) :
    ((d.nextData fs).1).blockno = d.blockno + 1 := by
  unfold Download.nextData
  cases hf : fs d.filename (d.blockno + 1) <;> simp

theorem nextData_fst_done_mono (fs : Provider) (d : Download) (h : d.done = true) :
    ((d.nextData fs).1).done = true := by
  unfold Download.nextData
  cases hf : fs d.filename (d.blockno + 1) <;> simp [h]

theorem makeNext_fst (fs : Provider) (d : Download) :
    (d.makeNextDataMessage fs).1 = (d.nextData fs).1 := by
  unfold Download.makeNextDataMessage
  rcases h : d.nextData fs with ⟨d1, r⟩
  rcases r with e | ⟨b, data⟩
  · rfl
  · simp only [] at h ⊢
    cases hi : intToBytes b <;> simp [hi]

theorem makeNext_fst_blockno (fs : Provider) (d : Download) :
    ((d.makeNextDataMessage fs).1).blockno = d.blockno + 1 := by
  rw [makeNext_fst]; exact nextData_fst_blockno fs d

theorem makeNext_fst_done_mono (fs : Provider) (d : Download) (h : d.done = true) :
    ((d.makeNextDataMessage fs).1).done = true := by
  rw [makeNext_fst]; exact nextData_fst_done_mono fs d h

theorem nextData_ok_cases (fs : Provider) (d d1 : Download) (b : Nat) (data : Bytes)
    (h : d.nextData fs = (d1, Except.ok (b, data))) :
    fs d.filename (d.blockno + 1) = some data ∧ b = d.blockno + 1 ∧
      d1 = { d with
              blockno := d.blockno + 1,
              done := if data.length < BLOCK_SIZE then true else d.done } := by
  unfold Download.nextData at h
  cases hf : fs d.filename (d.blockno + 1) <;> rw [hf] at h
  · simp at h
  case some val =>
    simp only [Prod.mk.injEq, Except.ok.injEq] at h
    obtain ⟨h1, h2, h3⟩ := h
    subst h2
    subst h3
    exact ⟨rfl, rfl, h1.symm⟩

theorem nextData_error_cases (fs : Provider) (d d1 : Download) (e : Err)
    (h : d.nextData fs = (d1, Except.error e)) :
    fs d.filename (d.blockno + 1) = none ∧ e = Err.badData BadKind.fileNotFound ∧
      d1 = { d with blockno := d.blockno + 1 } := by
  unfold Download.nextData at h
  cases hf : fs d.filename (d.blockno + 1) <;> rw [hf] at h
  · simp only [Prod.mk.injEq, Except.error.injEq] at h
    exact ⟨rfl, h.2.symm, h.1.symm⟩
  · simp at h

theorem makeNext_ok_shape (fs : Provider) (d d2 : Download) (msg : Bytes)
    (h : d.makeNextDataMessage fs = (d2, Except.ok msg)) :
    d2.blockno = d.blockno + 1 ∧ d.blockno + 1 < 65536 ∧
      ∃ payload, fs d.filename (d.blockno + 1) = some payload ∧
        msg = opDATA ++ [(d.blockno + 1) / 256, (d.blockno + 1) % 256] ++ payload := by
  unfold Download.makeNextDataMessage at h
  rcases hn : d.nextData fs with ⟨d1, r⟩
  rw [hn] at h
  rcases r with e | ⟨b, data⟩
  · simp at h
  · simp only [] at h
    cases hi : intToBytes b <;> rw [hi] at h
    · simp at h
    case ok bb =>
      simp only [Prod.mk.injEq, Except.ok.injEq] at h
      obtain ⟨h1, h2⟩ := h
      obtain ⟨hf, hb, hd1⟩ := nextData_ok_cases fs d d1 b data hn
      unfold intToBytes at hi
      subst hb
      by_cases hlt : d.blockno + 1 < 65536
      · rw [if_pos hlt] at hi
        injection hi with hbb
        refine ⟨?_, hlt, data, hf, ?_⟩
        · rw [← h1, hd1]
        · rw [← h2, ← hbb]
      · rw [if_neg hlt] at hi
        cases hi

theorem runD_done_mono (fs : Provider) (d : Download) (m n : Nat) (hmn : m ≤ n)
    (h : (runD fs d m).done = true) : (runD fs d n).done = true := by
  induction n with
  | zero =>
    have hm : m = 0 := Nat.le_zero.mp hmn
    subst hm
    exact h
  | succ n ih =>
    rcases Nat.le_succ_iff.mp hmn with h1 | rfl
    · show ((runD fs d n).makeNextDataMessage fs).1.done = true
      exact makeNext_fst_done_mono fs (runD fs d n) (ih h1)
    · exact h

theorem stepsOk_blockno (fs : Provider) (n : Nat) :
    ∀ d0 d1 : Download, stepsOk fs n d0 = some d1 → d1.blockno = d0.blockno + n := by
  induction n with
  | zero =>
    intro d0 d1 h
    simp only [stepsOk, Option.some.injEq] at h
    subst h
    simp
  | succ n ih =>
    intro d0 d1 h
    unfold stepsOk at h
    cases hmid : stepsOk fs n d0 <;> rw [hmid] at h
    · simp at h
    case some dmid =>
      simp only [] at h
      rcases hmk : dmid.makeNextDataMessage fs with ⟨d2, r⟩
      rw [hmk] at h
      rcases r with e | msg
      · simp at h
      · simp only [Option.some.injEq] at h
        subst h
        have hb := makeNext_fst_blockno fs dmid
        rw [hmk] at hb
        have hb2 : d2.blockno = dmid.blockno + 1 := hb
        have hmidb := ih d0 dmid hmid
        omega

theorem splitNull_ne_nil (l : Bytes) : splitNull l ≠ [] := by
  cases l with
  | nil => simp [splitNull]
  | cons b rest =>
    unfold splitNull
    by_cases hb : b = 0
    · simp [hb]
    · rw [if_neg hb]
      cases h : splitNull rest <;> simp

theorem splitNull_no_zero (l : Bytes) : ∀ f ∈ splitNull l, (0 : Nat) ∉ f := by
  induction l with
  | nil =>
    intro f hf
    simp [splitNull] at hf
    subst hf
    simp
  | cons b rest ih =>
    intro f hf
    unfold splitNull at hf
    by_cases hb : b = 0
    · rw [if_pos hb] at hf
      rcases List.mem_cons.mp hf with rfl | hf2
      · simp
      · exact ih f hf2
    · rw [if_neg hb] at hf
      cases h : splitNull rest with
      | nil => exact absurd h (splitNull_ne_nil rest)
      | cons f0 fs0 =>
        rw [h] at hf
        rcases List.mem_cons.mp hf with rfl | hf2
        · intro hmem
          rcases List.mem_cons.mp hmem with h0 | h0
          · exact hb h0.symm
          · exact ih f0 (by rw [h]; exact List.mem_cons_self f0 fs0) h0
        · exact ih f (by rw [h]; exact List.mem_cons_of_mem f0 hf2)

theorem take_two_length (data : Bytes) (x y : Nat) (h : data.take 2 = [x, y]) :
    2 ≤ data.length := by
  have hlen := congrArg List.length h
  simp [List.length_take] at hlen
  omega

theorem take_two_shape (data : Bytes) (x y : Nat) (h : data.take 2 = [x, y]) :
    ∃ rest, data = x :: y :: rest := by
  cases data with
  | nil => simp [List.take] at h
  | cons a t =>
    cases t with
    | nil => simp [List.take] at h
    | cons b t2 =>
      simp [List.take] at h
      exact ⟨t2, by rw [h.1, h.2]⟩

theorem bytesToInt_ok (byt : Bytes) (n : Nat) (h : bytesToInt byt = Except.ok n) :
    ∃ x y, byt = [x, y] ∧ n = x * 256 + y := by
  rcases byt with _ | ⟨x, _ | ⟨y, _ | ⟨z, t⟩⟩⟩
  · simp [bytesToInt] at h
  · simp [bytesToInt] at h
  · unfold bytesToInt at h
    injection h with h
    exact ⟨x, y, rfl, h.symm⟩
  · simp [bytesToInt] at h

theorem bytesToInt_len_error (byt : Bytes) (h : byt.length ≠ 2) :
    bytesToInt byt = Except.error Err.structError := by
  rcases byt with _ | ⟨x, _ | ⟨y, t⟩⟩
  · rfl
  · rfl
  · cases t with
    | nil => exact absurd rfl h
    | cons z t2 => rfl

theorem ackOfData_opcode_error (data : Bytes) (h : data.take 2 ≠ opACK) :
    Ack.ofData data = Except.error (Err.badData BadKind.notAnAck) := by
  unfold Ack.ofData
  rw [if_pos h]

theorem ackOfData_ok_cases (data : Bytes) (a : Ack) (h : Ack.ofData data = Except.ok a) :
    ∃ x y, data = opACK ++ [x, y] ∧ a.blockno = x * 256 + y := by
  unfold Ack.ofData at h
  by_cases hop : data.take 2 = opACK
  · rw [if_neg (by simp [hop])] at h
    cases hb : bytesToInt (data.drop 2) <;> rw [hb] at h
    · simp at h
    next n =>
      simp only [Except.ok.injEq] at h
      obtain ⟨x, y, hxy, hn⟩ := bytesToInt_ok (data.drop 2) n hb
      refine ⟨x, y, ?_, by rw [← h, hn]⟩
      have := List.take_append_drop 2 data
      rw [hop, hxy] at this
      exact this.symm
  · rw [if_pos hop] at h
    simp at h

theorem ackOfData_good (data : Bytes) (x y : Nat) (h : data = opACK ++ [x, y]) :
    Ack.ofData data = Except.ok ⟨x * 256 + y⟩ := by
  subst h
  rfl

theorem ackOfData_struct_error (data : Bytes) (hop : data.take 2 = opACK)
    (hlen : data.length ≠ 4) : Ack.ofData data = Except.error Err.structError := by
  unfold Ack.ofData
  rw [if_neg (by simp [hop])]
  have hd : bytesToInt (data.drop 2) = Except.error Err.structError := by
    apply bytesToInt_len_error
    have h2 : 2 ≤ data.length := take_two_length data 0 4 (by simpa [opACK] using hop)
    simp [List.length_drop]
    omega
  rw [hd]

theorem ack_wrong_source (fs : Provider) (d : Download) (message : Bytes) (host : Bytes)
    (port : Nat) (h : ¬(host = d.remoteHost ∧ port = d.remotePort)) :
    d.ack fs message host port = (d, Except.error (Err.badData BadKind.wrongSource)) := by
  unfold Download.ack
  rw [if_pos (not_and_or.mp h)]

theorem ack_parse_error (fs : Provider) (d : Download) (message : Bytes) (host : Bytes)
    (port : Nat) (e : Err) (hsrc : host = d.remoteHost ∧ port = d.remotePort)
    (hp : Ack.ofData message = Except.error e) :
    d.ack fs message host port = (d, Except.error e) := by
  unfold Download.ack
  rw [if_neg (by push_neg; exact hsrc), hp]

theorem ack_out_of_sequence (fs : Provider) (d : Download) (message : Bytes) (host : Bytes)
    (port : Nat) (a : Ack) (hsrc : host = d.remoteHost ∧ port = d.remotePort)
    (hp : Ack.ofData message = Except.ok a) (hne : a.blockno ≠ d.blockno) :
    d.ack fs message host port = (d, Except.error (Err.badData BadKind.outOfSequence)) := by
  unfold Download.ack
  rw [if_neg (by push_neg; exact hsrc), hp]
  simp only []
  rw [if_pos hne]

theorem ack_accept (fs : Provider) (d : Download) (message : Bytes) (host : Bytes)
    (port : Nat) (a : Ack) (hsrc : host = d.remoteHost ∧ port = d.remotePort)
    (hp : Ack.ofData message = Except.ok a) (heq : a.blockno = d.blockno) :
    d.ack fs message host port = d.makeNextDataMessage fs := by
  unfold Download.ack
  rw [if_neg (by push_neg; exact hsrc), hp]
  simp only []
  rw [if_neg (by simp [heq])]

theorem rrOfData_opcode_error (data : Bytes) (h : data.length < 2 ∨ data.take 2 ≠ opRRQ) :
    ReadRequest.ofData data = Except.error (Err.badData BadKind.notAReadRequest) := by
  unfold ReadRequest.ofData
  rw [if_pos h]

theorem rrOfData_ok (data : Bytes) (f m t : Bytes) (hop : data.take 2 = opRRQ)
    (hs : splitNull (data.drop 2) = [f, m, t]) :
    ReadRequest.ofData data = Except.ok ⟨f, m⟩ := by
  have h2 : 2 ≤ data.length := take_two_length data 0 1 (by simpa [opRRQ] using hop)
  unfold ReadRequest.ofData
  rw [if_neg (by push_neg; exact ⟨by omega, hop⟩), hs]

theorem rrOfData_ok_cases (data : Bytes) (rr : ReadRequest)
    (h : ReadRequest.ofData data = Except.ok rr) :
    data.take 2 = opRRQ ∧ ∃ t, splitNull (data.drop 2) = [rr.filename, rr.mode, t] := by
  unfold ReadRequest.ofData at h
  by_cases hc : data.length < 2 ∨ data.take 2 ≠ opRRQ
  · rw [if_pos hc] at h
    simp at h
  · rw [if_neg hc] at h
    push_neg at hc
    obtain ⟨rf, rm⟩ := rr
    refine ⟨hc.2, ?_⟩
    rcases hs : splitNull (data.drop 2) with _ | ⟨f, _ | ⟨m, _ | ⟨t, _ | ⟨u, rest⟩⟩⟩⟩ <;>
      rw [hs] at h <;> simp at h
    exact ⟨t, by rw [h.1, h.2]⟩

theorem rrOfData_value_error (data : Bytes) (hop : data.take 2 = opRRQ)
    (hn : (splitNull (data.drop 2)).length ≠ 3) :
    ReadRequest.ofData data = Except.error Err.valueError := by
  have h2 : 2 ≤ data.length := take_two_length data 0 1 (by simpa [opRRQ] using hop)
  unfold ReadRequest.ofData
  rw [if_neg (by push_neg; exact ⟨by omega, hop⟩)]
  rcases hs : splitNull (data.drop 2) with _ | ⟨f, _ | ⟨m, _ | ⟨t, _ | ⟨u, rest⟩⟩⟩⟩
  · exact absurd hs (splitNull_ne_nil _)
  · simp
  · simp
  · rw [hs] at hn
    simp at hn
  · simp

theorem makeNext_of_some (fs : Provider) (d : Download) (data : Bytes)
    (hf : fs d.filename (d.blockno + 1) = some data) (hlt : d.blockno + 1 < 65536) :
    d.makeNextDataMessage fs =
      ({ d with
          blockno := d.blockno + 1,
          done := if data.length < BLOCK_SIZE then true else d.done },
       Except.ok (opDATA ++ [(d.blockno + 1) / 256, (d.blockno + 1) % 256] ++ data)) := by
  have hn : d.nextData fs =
      ({ d with
          blockno := d.blockno + 1,
          done := if data.length < BLOCK_SIZE then true else d.done },
       Except.ok (d.blockno + 1, data)) := by
    unfold Download.nextData
    rw [hf]
  unfold Download.makeNextDataMessage
  rw [hn]
  simp only []
  unfold intToBytes
  rw [if_pos hlt]

theorem ack_reject (fs : Provider) (d : Download) (message : Bytes) (host : Bytes)
    (port : Nat)
    (hne : ¬(host = d.remoteHost ∧ port = d.remotePort ∧
      Ack.ofData message = Except.ok ⟨d.blockno⟩)) :
    ∃ e, d.ack fs message host port = (d, Except.error e) := by
  by_cases hsrc : host = d.remoteHost ∧ port = d.remotePort
  · cases hp : Ack.ofData message with
    | error e => exact ⟨e, ack_parse_error fs d message host port e hsrc hp⟩
    | ok a =>
      by_cases heq : a.blockno = d.blockno
      · exfalso
        apply hne
        have ha : a = Ack.mk d.blockno := by
          cases a
          exact congrArg Ack.mk heq
        exact ⟨hsrc.1, hsrc.2, by rw [hp, ha]⟩
      · exact ⟨_, ack_out_of_sequence fs d message host port a hsrc hp heq⟩
  · exact ⟨_, ack_wrong_source fs d message host port hsrc⟩

/-! Claim theorems. -/

/-- Claim C1, counterexample to the stated biconditional: for the fresh
woo.txt session over a provider holding nothing, the ack datagram for
block 0 from the pinned (127.0.0.1, 1111) satisfies all three acceptance
conditions of the claim (source matches, parses as an ack, block number
equals currentBlockNumber), yet Download.ack does not return the next
data message: it fails with the file-not-found error raised by the
provider. -/
theorem claim1_counterexample :
    localHost1 = dl0.remoteHost ∧ (1111 : Nat) = dl0.remotePort ∧
    Ack.ofData (opACK ++ [0, 0]) = Except.ok ⟨dl0.blockno⟩ ∧
    (dl0.ack emptyFs (opACK ++ [0, 0]) localHost1 1111).2 =
      Except.error (Err.badData BadKind.fileNotFound) := by
  exact ⟨rfl, rfl, by decide, by decide⟩

/-- Claim C1 as amended: Download.ack returns the next data message if
and only if the source address equals the pinned (remoteHost,
remotePort), the datagram parses as an ack whose block number equals
currentBlockNumber, the provider returns data for block
currentBlockNumber + 1, and currentBlockNumber + 1 fits in 16 bits; and
on every rejection by the source, parse or sequence check it fails with
an error and the whole session state, in particular currentBlockNumber
and done, is unchanged. -/
theorem claim1_ack_accept_iff (fs : Provider) (d : Download) (message : Bytes)
    (host : Bytes) (port : Nat) :
    ((∃ d1 out, d.ack fs message host port = (d1, Except.ok out)) ↔
      host = d.remoteHost ∧ port = d.remotePort ∧
        Ack.ofData message = Except.ok ⟨d.blockno⟩ ∧
        (∃ data, fs d.filename (d.blockno + 1) = some data) ∧ d.blockno + 1 < 65536) ∧
    (¬(host = d.remoteHost ∧ port = d.remotePort ∧
        Ack.ofData message = Except.ok ⟨d.blockno⟩) →
      ∃ e, d.ack fs message host port = (d, Except.error e)) := by
  constructor
  · constructor
    · rintro ⟨d1, out, hok⟩
      by_cases hsrc : host = d.remoteHost ∧ port = d.remotePort
      · cases hp : Ack.ofData message with
        | error e =>
          rw [ack_parse_error fs d message host port e hsrc hp] at hok
          simp at hok
        | ok a =>
          by_cases heq : a.blockno = d.blockno
          · rw [ack_accept fs d message host port a hsrc hp heq] at hok
            obtain ⟨hbl, hlt, data, hfd, hmsg⟩ := makeNext_ok_shape fs d d1 out hok
            have ha : a = Ack.mk d.blockno := by
              cases a
              exact congrArg Ack.mk heq
            exact ⟨hsrc.1, hsrc.2, congrArg Except.ok ha, ⟨data, hfd⟩, hlt⟩
          · rw [ack_out_of_sequence fs d message host port a hsrc hp heq] at hok
            simp at hok
      · rw [ack_wrong_source fs d message host port hsrc] at hok
        simp at hok
    · rintro ⟨hh, hp2, hparse, ⟨data, hdata⟩, hlt⟩
      rw [ack_accept fs d message host port ⟨d.blockno⟩ ⟨hh, hp2⟩ hparse rfl]
      rw [makeNext_of_some fs d data hdata hlt]
      exact ⟨_, _, rfl⟩
  · exact fun hne => ack_reject fs d message host port hne

/-- Claim C1 witness: with the 520-byte woo.txt provider, the ack for
block 0 from the pinned address is accepted, and the same ack from a
different host is rejected with the session state unchanged. -/
theorem claim1_ack_accept_iff_witness :
    (∃ d1 out, dl0.ack fs520 (opACK ++ [0, 0]) localHost1 1111 = (d1, Except.ok out)) ∧
    (∃ e, dl0.ack fs520 (opACK ++ [0, 0]) otherHost 1111 = (dl0, Except.error e)) :=
  ⟨((claim1_ack_accept_iff fs520 dl0 (opACK ++ [0, 0]) localHost1 1111).1).mpr
      ⟨rfl, rfl, by decide, ⟨(fileData520.drop 0).take 512, by decide⟩, by decide⟩,
    (claim1_ack_accept_iff fs520 dl0 (opACK ++ [0, 0]) otherHost 1111).2 (by decide)⟩

/-- Claim C2: the checks of Download.ack happen in the order source
address, then ack parsing, then sequence number: whenever the source is
not the pinned one the reported failure is the wrong-source error, even
for a malformed datagram; whenever any of the three checks fails the
session state is unchanged and no data message is produced, only an
error is returned; and when the source is right but the datagram is
malformed, the parse error is what is reported, before any sequence
consideration. -/
theorem claim2_check_order (fs : Provider) (d : Download) (message : Bytes)
    (host : Bytes) (port : Nat) :
    (¬(host = d.remoteHost ∧ port = d.remotePort) →
      d.ack fs message host port = (d, Except.error (Err.badData BadKind.wrongSource))) ∧
    (¬(host = d.remoteHost ∧ port = d.remotePort ∧
        Ack.ofData message = Except.ok ⟨d.blockno⟩) →
      (d.ack fs message host port).1 = d ∧
        ∃ e, (d.ack fs message host port).2 = Except.error e) ∧
    (∀ e : Err, host = d.remoteHost → port = d.remotePort →
      Ack.ofData message = Except.error e →
      d.ack fs message host port = (d, Except.error e)) := by
  refine ⟨fun h => ack_wrong_source fs d message host port h, fun hne => ?_,
    fun e hh hp hparse => ack_parse_error fs d message host port e ⟨hh, hp⟩ hparse⟩
  obtain ⟨e, he⟩ := ack_reject fs d message host port hne
  rw [he]
  exact ⟨rfl, e, rfl⟩

/-- Claim C2 witness: the datagram 0x0909 is malformed, and sent from a
wrong source it is reported as wrong-source; sent from the pinned source
it is rejected with the state unchanged. -/
theorem claim2_check_order_witness :
    dl0.ack fs520 [9, 9] otherHost 2222 =
      (dl0, Except.error (Err.badData BadKind.wrongSource)) ∧
    ((dl0.ack fs520 [9, 9] localHost1 1111).1 = dl0 ∧
      ∃ e, (dl0.ack fs520 [9, 9] localHost1 1111).2 = Except.error e) ∧
    dl0.ack fs520 [9, 9] localHost1 1111 =
      (dl0, Except.error (Err.badData BadKind.notAnAck)) :=
  ⟨(claim2_check_order fs520 dl0 [9, 9] otherHost 2222).1 (by decide),
    (claim2_check_order fs520 dl0 [9, 9] localHost1 1111).2.1 (by decide),
    (claim2_check_order fs520 dl0 [9, 9] localHost1 1111).2.2
      (Err.badData BadKind.notAnAck) rfl rfl (by decide)⟩

/-- Claim C3: happy-path download of the 520-byte resource woo.txt,
whose content is the ten digits repeated 52 times, by a session created
from a parsed read request and pinned to (127.0.0.1, 1111): the first
produced message is the DATA opcode, block number 1 and the first 512
content bytes, the session is not yet done; acking with the 4-byte ack
for block 1 from the pinned address yields the DATA opcode, block
number 2 and the remaining 8 bytes, and the session is then done.  The
provider fs520 serves block k as byte offsets (k-1)*512 through
k*512-1 of the content. -/
theorem claim3_download_happy_path :
    ReadRequest.ofData rrqWoo = Except.ok rrWoo ∧
    dl0 = Download.ofRequest rrWoo localHost1 1111 ∧
    fileData520.length = 520 ∧
    (dl0.makeNextDataMessage fs520).2 =
      Except.ok (opDATA ++ [0, 1] ++ fileData520.take 512) ∧
    (dl0.makeNextDataMessage fs520).1.done = false ∧
    ((dl0.makeNextDataMessage fs520).1.ack fs520 (opACK ++ [0, 1]) localHost1 1111).2 =
      Except.ok (opDATA ++ [0, 2] ++ fileData520.drop 512) ∧
    (fileData520.drop 512).length = 8 ∧
    ((dl0.makeNextDataMessage fs520).1.ack fs520 (opACK ++ [0, 1]) localHost1 1111).1.done =
      true := by
  exact ⟨by decide, rfl, by decide, by decide, by decide, by decide, by decide, by decide⟩

/-- Claim C4: along every sequence of produce-next-data-message calls,
done is monotone (once true it never becomes false, so it transitions
false to true at most once); a successful call makes done true exactly
when it was already true or the produced payload is strictly shorter
than the 512-byte block size (so the first short payload, including an
empty one, is what turns it on); and a failed block fetch leaves done
unchanged. -/
theorem claim4_done_lifecycle (fs : Provider) (d : Download) :
    (∀ m n : Nat, m ≤ n → (runD fs d m).done = true → (runD fs d n).done = true) ∧
    (∀ (d1 : Download) (b : Nat) (data : Bytes),
        d.nextData fs = (d1, Except.ok (b, data)) →
        (d1.done = true ↔ d.done = true ∨ data.length < BLOCK_SIZE)) ∧
    (∀ (d1 : Download) (e : Err),
        d.nextData fs = (d1, Except.error e) → d1.done = d.done) := by
  refine ⟨fun m n hmn h => runD_done_mono fs d m n hmn h, ?_, ?_⟩
  · intro d1 b data h
    obtain ⟨hf, hb, hd1⟩ := nextData_ok_cases fs d d1 b data h
    rw [hd1]
    by_cases hlen : data.length < BLOCK_SIZE
    · simp [hlen]
    · simp [hlen]
  · intro d1 e h
    obtain ⟨hf, he, hd1⟩ := nextData_error_cases fs d d1 e h
    rw [hd1]

/-- Claim C4 witness: for the woo.txt session, done is true after two
calls and, by monotonicity, also after three. -/
theorem claim4_done_lifecycle_witness : (runD fs520 dl0 3).done = true :=
  (claim4_done_lifecycle fs520 dl0).1 2 3 (by decide) (by decide)

/-- Claim C5: starting from a session whose currentBlockNumber is 0,
after N successful produce-next-data-message calls currentBlockNumber
equals N (each call increments it by exactly 1), and the next produced
data message carries the block number bytes of N + 1, the value of
currentBlockNumber at the moment of its production. -/
theorem claim5_blockno_invariant (fs : Provider) (d0 d1 : Download) (n : Nat)
    (h0 : d0.blockno = 0) (h : stepsOk fs n d0 = some d1) :
    d1.blockno = n ∧
    (∀ (d2 : Download) (msg : Bytes), d1.makeNextDataMessage fs = (d2, Except.ok msg) →
      d2.blockno = n + 1 ∧
        ∃ payload, msg = opDATA ++ [(n + 1) / 256, (n + 1) % 256] ++ payload) := by
  have hb : d1.blockno = n := by
    have := stepsOk_blockno fs n d0 d1 h
    omega
  refine ⟨hb, fun d2 msg hmk => ?_⟩
  obtain ⟨h1, h2, payload, hfd, hmsg⟩ := makeNext_ok_shape fs d1 d2 msg hmk
  rw [hb] at h1 hmsg
  exact ⟨h1, payload, hmsg⟩

/-- Claim C5 witness: one successful call on the woo.txt session leaves
currentBlockNumber at 1. -/
theorem claim5_blockno_invariant_witness : dlStep1.blockno = 1 :=
  (claim5_blockno_invariant fs520 dl0 dlStep1 1 rfl (by decide)).1

/-- Claim C6, counterexample: the datagram RRQ ++ a 0 b 0 c splits into
the three fields a, b, c with a non-empty third field, yet the request
parser succeeds, contradicting the claim that it succeeds only when the
third field is empty. -/
theorem claim6_counterexample :
    splitNull ((opRRQ ++ [97, 0, 98, 0, 99]).drop 2) = [[97], [98], [99]] ∧
    ReadRequest.ofData (opRRQ ++ [97, 0, 98, 0, 99]) = Except.ok ⟨[97], [98]⟩ := by
  exact ⟨by decide, by decide⟩

/-- Claim C6 as amended: the request parser succeeds exactly when the
first 2 bytes equal the RRQ opcode and the remaining bytes split on null
into exactly three fields, with no constraint on the third field; on
success it returns the first two fields as filename and mode; a too
short datagram or a wrong opcode fails with the malformed-request error,
while a wrong field count fails with a different error, the ValueError
of the three-way tuple unpacking. -/
theorem claim6_request_parse (data : Bytes) :
    ((∃ rr, ReadRequest.ofData data = Except.ok rr) ↔
      data.take 2 = opRRQ ∧ (splitNull (data.drop 2)).length = 3) ∧
    (∀ f m t : Bytes, data.take 2 = opRRQ → splitNull (data.drop 2) = [f, m, t] →
      ReadRequest.ofData data = Except.ok ⟨f, m⟩) ∧
    ((data.length < 2 ∨ data.take 2 ≠ opRRQ) →
      ReadRequest.ofData data = Except.error (Err.badData BadKind.notAReadRequest)) ∧
    (data.take 2 = opRRQ → (splitNull (data.drop 2)).length ≠ 3 →
      ReadRequest.ofData data = Except.error Err.valueError) := by
  refine ⟨⟨?_, ?_⟩, fun f m t hop hs => rrOfData_ok data f m t hop hs,
    fun h => rrOfData_opcode_error data h,
    fun hop hn => rrOfData_value_error data hop hn⟩
  · rintro ⟨rr, hrr⟩
    obtain ⟨hop, t, hs⟩ := rrOfData_ok_cases data rr hrr
    exact ⟨hop, by rw [hs]; rfl⟩
  · rintro ⟨hop, hlen⟩
    rcases hs : splitNull (data.drop 2) with _ | ⟨f, _ | ⟨m, _ | ⟨t, _ | ⟨u, rest⟩⟩⟩⟩ <;>
      rw [hs] at hlen <;> simp at hlen
    exact ⟨⟨f, m⟩, rrOfData_ok data f m t hop hs⟩

/-- Claim C6 witness: the well-formed woo.txt read request parses to the
expected filename and mode. -/
theorem claim6_request_parse_witness :
    ReadRequest.ofData rrqWoo = Except.ok ⟨wooName, netasciiBytes⟩ :=
  (claim6_request_parse rrqWoo).2.1 wooName netasciiBytes [] (by decide) (by decide)

/-- Claim C7, counterexample: a 3-byte datagram with the correct ACK
opcode fails, but with the struct unpack error, not with the
malformed-ack error the claim names for every non-conforming input. -/
theorem claim7_counterexample :
    Ack.ofData [0, 4, 0] = Except.error Err.structError ∧
    Err.structError ≠ Err.badData BadKind.notAnAck := by
  exact ⟨by decide, by decide⟩

/-- Claim C7 as amended: the ack parser succeeds exactly when the
datagram is the 2 ACK opcode bytes followed by exactly 2 block number
bytes, returning the big-endian block number; it fails with the
malformed-ack error exactly when the first 2 bytes differ from the ACK
opcode, including on empty input; with the ACK opcode but total length
other than 4 it instead fails with the struct unpack error. -/
theorem claim7_ack_parse (data : Bytes) :
    (∀ x y : Nat, data = opACK ++ [x, y] → Ack.ofData data = Except.ok ⟨x * 256 + y⟩) ∧
    (∀ a : Ack, Ack.ofData data = Except.ok a →
      ∃ x y, data = opACK ++ [x, y] ∧ a.blockno = x * 256 + y) ∧
    (data.take 2 ≠ opACK →
      Ack.ofData data = Except.error (Err.badData BadKind.notAnAck)) ∧
    (data.take 2 = opACK → data.length ≠ 4 →
      Ack.ofData data = Except.error Err.structError) :=
  ⟨fun x y h => ackOfData_good data x y h,
    fun a h => ackOfData_ok_cases data a h,
    fun h => ackOfData_opcode_error data h,
    fun h1 h2 => ackOfData_struct_error data h1 h2⟩

/-- Claim C7 witness: the ack for block 1 parses to block number 1,
while the empty datagram and an RRQ payload fail with the malformed-ack
error. -/
theorem claim7_ack_parse_witness :
    Ack.ofData (opACK ++ [0, 1]) = Except.ok ⟨1⟩ ∧
    Ack.ofData [] = Except.error (Err.badData BadKind.notAnAck) ∧
    Ack.ofData rrqWoo = Except.error (Err.badData BadKind.notAnAck) :=
  ⟨(claim7_ack_parse (opACK ++ [0, 1])).1 0 1 rfl,
    (claim7_ack_parse []).2.2.1 (by decide),
    (claim7_ack_parse rrqWoo).2.2.1 (by decide)⟩

/-- Claim C8, violated by the code: after the woo.txt session is
complete (done is true, final block 2 sent), an inbound retransmission
of the final ack from the pinned address makes datagramReceived stop
listening but then still call Download.ack, producing and writing a
further empty data message for block 3, instead of discarding the
datagram without calling ack as the claim states. -/
theorem claim8_complete_not_terminal :
    dDone.done = true ∧
    datagramReceived fs520 dDone (opACK ++ [0, 2]) localHost1 1111 =
      (⟨wooName, netasciiBytes, localHost1, 1111, 3, true⟩,
       [TransportAction.stopListening,
        TransportAction.write (opDATA ++ [0, 3]) (localHost1, 1111)], none) := by
  exact ⟨rfl, by decide⟩

/-- Claim C9, counterexample: the datagram RRQ ++ 0 ++ netascii ++ 0
parses successfully although its filename field is the empty byte
string, contradicting the claim that every successfully constructed
ReadRequest has a non-empty filename. -/
theorem claim9_counterexample :
    ReadRequest.ofData (opRRQ ++ [0] ++ netasciiBytes ++ [0]) =
      Except.ok ⟨[], netasciiBytes⟩ := by
  decide

/-- Claim C9 as amended: every ReadRequest successfully constructed from
a raw datagram has a filename with no embedded null byte; the filename
may however be empty. -/
theorem claim9_filename_no_null (data : Bytes) (rr : ReadRequest)
    (h : ReadRequest.ofData data = Except.ok rr) : (0 : Nat) ∉ rr.filename := by
  obtain ⟨hop, t, hs⟩ := rrOfData_ok_cases data rr h
  exact splitNull_no_zero (data.drop 2) rr.filename (by rw [hs]; simp)

/-- Claim C9 witness: the parsed woo.txt filename contains no null
byte. -/
theorem claim9_filename_no_null_witness : (0 : Nat) ∉ rrWoo.filename :=
  claim9_filename_no_null rrqWoo rrWoo (by decide)

/-- Claim C10: getFileData returns block data only when the requested
name is exactly equal to the plain name of one of the directory entries;
when no entry name equals the requested name it fails with the
file-not-found error, and in particular a requested name containing the
path separator byte 47 always fails when, as os.listdir guarantees, the
listed plain names contain no separator. -/
theorem claim10_name_matching (dir : List (Bytes × Bytes)) (req : Bytes) (blockno : Nat) :
    ((∃ data, getFileData dir req blockno = Except.ok data) →
      ∃ content, (req, content) ∈ dir) ∧
    ((∀ p ∈ dir, p.1 ≠ req) →
      getFileData dir req blockno = Except.error (Err.badData BadKind.fileNotFound)) ∧
    ((∀ p ∈ dir, (47 : Nat) ∉ p.1) → (47 : Nat) ∈ req →
      getFileData dir req blockno = Except.error (Err.badData BadKind.fileNotFound)) := by
  have hnone : (∀ p ∈ dir, p.1 ≠ req) →
      getFileData dir req blockno = Except.error (Err.badData BadKind.fileNotFound) := by
    intro hno
    unfold getFileData
    rw [List.find?_eq_none.mpr (fun p hp => by simpa using hno p hp)]
  refine ⟨?_, hnone, fun hplain hsep => ?_⟩
  · rintro ⟨data, h⟩
    unfold getFileData at h
    cases hfind : dir.find? (fun p => p.1 = req) <;> rw [hfind] at h
    · simp at h
    next p =>
      have hp1 : p.1 = req := by simpa using List.find?_some hfind
      have hmem : p ∈ dir := List.mem_of_find?_eq_some hfind
      exact ⟨p.2, by rw [show (req, p.2) = p from by rw [← hp1]]; exact hmem⟩
  · exact hnone (fun p hp heq => hplain p hp (heq ▸ hsep))

/-- Claim C10 witness: in a directory listing only woo.txt, the
traversal-style name a/b (which contains the separator byte 47) fails
with the file-not-found error. -/
theorem claim10_name_matching_witness :
    getFileData [(wooName, fileData520)] [97, 47, 98] 1 =
      Except.error (Err.badData BadKind.fileNotFound) :=
  (claim10_name_matching [(wooName, fileData520)] [97, 47, 98] 1).2.2
    (by decide) (by decide)

end Tftp
